import Mathlib

/-!
Verification of the SwarmHook core (ephemeral webhook inboxes backed by
redis) against its specification.  The definitions below are a shallow
embedding of the TypeScript source:

* `src/src/services/inbox.ts` (`InboxService`): inbox creation, event
  storage, queries, counts;
* `src/src/routes/events.ts`: the polling and streaming handlers;
* `src/src/middleware/ratelimit.ts`: the fixed-window rate limiter.

Modelling conventions:

* Time is in milliseconds since the epoch, the unit of `Date.now()`.  The
  source stores `received_at`/`created_at`/`expires_at` as ISO-8601 strings
  produced from millisecond timestamps and converts them back with
  `new Date(x).getTime()`, a lossless round trip, so plain numbers model
  them exactly.  Redis `SETEX`/`EXPIRE`/`TTL` work in whole seconds in the
  source (`ttlSeconds`); they are modelled at millisecond precision, which
  preserves every deadline equality the source establishes and the sign of
  every TTL it inspects.
* A redis key is `Option (value × Option deadline)`: `none` when the key is
  absent, and a key's deadline is `none` when it has no TTL (a plain `SET`
  leaves a key without one).  Redis deletes a key lazily once its deadline
  passes; reads go through `purge`, which realises exactly that.
* Each operation of the source performs a sequence of awaited redis
  commands; the model executes them in the same order on an explicit state.
  All claims below are per inbox, so the state holds the four keys derived
  from a single inbox: `inbox:{id}`, `apikey:{key}`, `events:{id}`,
  `unread:{id}`.
* Event bodies are opaque; they are modelled as strings.
-/

namespace Swarmhook

/-- `WebhookEvent` from `src/src/types/index.ts`: one received webhook.
`received_at` is the millisecond timestamp (see the module comment). -/
structure WebhookEvent where
  id : String
  inbox_id : String
  received_at : Nat
  source_ip : String
  headers : List (String × String)
  body : String
  read : Bool
deriving DecidableEq, Repr

/-- `Inbox` from `src/src/types/index.ts`. -/
structure Inbox where
  id : String
  agent_id : String
  webhook_url : String
  polling_url : String
  api_key : String
  created_at : Nat
  expires_at : Nat
  ttl_hours : Nat
  metadata : Option String
deriving DecidableEq, Repr

/-- `CreateInboxRequest` from `src/src/types/index.ts`. -/
structure CreateInboxRequest where
  ttl_hours : Option Nat := none
  metadata : Option String := none
deriving DecidableEq, Repr

/-- Lazy expiry of one redis key: a key whose deadline has passed is gone; a
key without a deadline persists.  Every read of the store goes through this. -/
def purge {α : Type} (now : Nat) : Option (α × Option Nat) → Option (α × Option Nat)
  | some (v, some e) => if now < e then some (v, some e) else none
  | k => k

/-- The value a `GET`-style read returns at time `now`. -/
def liveVal {α : Type} (now : Nat) (k : Option (α × Option Nat)) : Option α :=
  (purge now k).map Prod.fst

/-- `redis.ttl`: remaining time to live of a key.  `-2` when the key is
absent (or lazily expired), `-1` when it exists without a TTL; the source
only ever tests the sign (`if (ttl > 0)`), which the millisecond-precision
model preserves. -/
def redisTTL {α : Type} (now : Nat) (k : Option (α × Option Nat)) : Int :=
  match purge now k with
  | none => -2
  | some (_, none) => -1
  | some (_, some e) => (e : Int) - (now : Int)

/-- The redis keys belonging to one inbox (the source's keyspace restricted
to a single inbox id and its api key):
`inbox:{id}`, `apikey:{key}` (credential → id), `events:{id}` (a sorted set
of serialized events, kept in ascending score order), `unread:{id}` (a
counter string).  Two serialized events are the same redis member exactly
when the parsed structures are equal (JSON serialization is injective and
key order is stable in the source), so members are modelled as
`WebhookEvent` values compared structurally. -/
structure Store where
  inboxKey : Option (Inbox × Option Nat)
  apikeyKey : Option (String × Option Nat)
  eventsKey : Option (List (Nat × WebhookEvent) × Option Nat)
  unreadKey : Option (Int × Option Nat)
deriving DecidableEq, Repr

/-- `DEFAULT_TTL_HOURS` (src/src/services/inbox.ts line 5, default `'24'`). -/
def DEFAULT_TTL_HOURS : Nat := 24

/-- `MAX_EVENTS_PER_INBOX` (src/src/services/inbox.ts line 6, default `'100'`). -/
def MAX_EVENTS_PER_INBOX : Nat := 100

/-- `BASE_URL` (default `'http://localhost:3000'`). -/
def BASE_URL : String := "http://localhost:3000"

/-- JavaScript `x || d` for an optional number: `undefined` and `0` are
falsy and fall back to the default. -/
def jsOrNat : Option Nat → Nat → Nat
  | none, d => d
  | some 0, d => d
  | some n, _ => n

/-- JavaScript `x || d` for an optional integer (`0` is falsy, a negative
number is truthy and kept). -/
def jsOrInt : Option Int → Int → Int
  | none, d => d
  | some 0, d => d
  | some l, _ => l

/-- `InboxService.createInbox`: computes the ttl with `req.ttl_hours ||
DEFAULT_TTL_HOURS`, builds the record with `expires_at = now + ttl`, and
stores the record and the credential mapping, each with `SETEX ttlSeconds`.
The generated nanoid id and api key are passed in as parameters (they are
fresh, so the new inbox's keys start absent).  The source has no validation
of the requested ttl: every non-zero `ttl_hours` is used as supplied and
there is no failure path. -/
def createInbox (now : Nat) (agentId : String) (req : CreateInboxRequest)
    (inboxId apiKey : String) : Inbox × Store :=
  let ttlHours := jsOrNat req.ttl_hours DEFAULT_TTL_HOURS
  let ttlSeconds := ttlHours * 3600
  let inbox : Inbox :=
    { id := inboxId
      agent_id := agentId
      webhook_url := BASE_URL ++ "/in/" ++ inboxId
      polling_url := BASE_URL ++ "/api/v1/inboxes/" ++ inboxId ++ "/events"
      api_key := apiKey
      created_at := now
      expires_at := now + ttlSeconds * 1000
      ttl_hours := ttlHours
      metadata := req.metadata }
  (inbox,
    { inboxKey := some (inbox, some (now + ttlSeconds * 1000))
      apikeyKey := some (inboxId, some (now + ttlSeconds * 1000))
      eventsKey := none
      unreadKey := none })

/-- `InboxService.getInbox`: `GET inbox:{id}`, `null` when absent/expired. -/
def getInbox (now : Nat) (s : Store) : Option Inbox :=
  liveVal now s.inboxKey

/-- `InboxService.verifyApiKey`: `GET apikey:{key}` (credential → inbox id). -/
def verifyApiKey (now : Nat) (s : Store) : Option String :=
  liveVal now s.apikeyKey

/-- Insertion into the sorted set, ascending by score.  Among entries of
equal score the new member is placed last; redis orders equal scores
lexicographically by member, so the model agrees with redis whenever scores
are distinct (every theorem below either assumes distinct scores or states a
fact independent of the order among equal scores). -/
def insertEntry : List (Nat × WebhookEvent) → Nat → WebhookEvent → List (Nat × WebhookEvent)
  | [], sc, m => [(sc, m)]
  | q :: l, sc, m => if sc < q.1 then (sc, m) :: q :: l else q :: insertEntry l sc m

/-- `ZADD key score member`: if the member is already present its score is
updated (the old entry is removed), otherwise the member is inserted; the
set stays in score order. -/
def zadd (l : List (Nat × WebhookEvent)) (sc : Nat) (m : WebhookEvent) :
    List (Nat × WebhookEvent) :=
  insertEntry (l.filter (fun q => decide (q.2 ≠ m))) sc m

/-- `ZREMRANGEBYRANK key 0 -(MAX_EVENTS_PER_INBOX + 1)`: removes everything
except the `MAX_EVENTS_PER_INBOX` highest-ranked (most recent) entries; a
no-op while the set is within the bound. -/
def trimEvents (l : List (Nat × WebhookEvent)) : List (Nat × WebhookEvent) :=
  l.drop (l.length - MAX_EVENTS_PER_INBOX)

/-- `InboxService.storeEvent`, command for command: fails when the inbox is
absent or expired; `ZADD` of the new event with score `Date.now()`; reads
the inbox key's TTL and, when positive, `EXPIRE`s the events set to match;
trims the set to the capacity bound; `INCR`s the unread counter (creating it
at zero first if absent, keeping its TTL) and, when the inbox TTL was
positive, `EXPIRE`s it to match.  The concluding pub/sub `publish` carries
no stored state and is modelled separately (see the polling model below). -/
def storeEvent (now : Nat) (inboxId eventId sourceIp : String)
    (headers : List (String × String)) (body : String) (s : Store) :
    Except String (WebhookEvent × Store) :=
  match getInbox now s with
  | none => .error "Inbox not found or expired"
  | some _ =>
    let event : WebhookEvent :=
      { id := eventId
        inbox_id := inboxId
        received_at := now
        source_ip := sourceIp
        headers := headers
        body := body
        read := false }
    let ev0 := (purge now s.eventsKey).getD ([], none)
    let afterAdd := zadd ev0.1 now event
    let ttl := redisTTL now s.inboxKey
    let evExp := if 0 < ttl then some (now + ttl.toNat) else ev0.2
    let afterTrim := trimEvents afterAdd
    let un0 := (purge now s.unreadKey).getD (0, none)
    let unExp := if 0 < ttl then some (now + ttl.toNat) else un0.2
    .ok (event,
      { s with
        eventsKey := some (afterTrim, evExp)
        unreadKey := some (un0.1 + 1, unExp) })

/-- The options of `InboxService.getEvents`.  `since` is carried as the
result of `new Date(options.since).getTime()`: `none` when no `since` was
supplied (or it was the empty string, falsy in the source), `some none` when
the supplied string does not parse (`NaN`), `some (some t)` when it parses
to the timestamp `t`. -/
structure GetEventsOptions where
  unread : Bool := false
  since : Option (Option Int) := none
  limit : Option Int := none
  markRead : Bool := false
deriving DecidableEq, Repr

/-- `ZRANGEBYSCORE ... LIMIT 0 limit` count handling: a negative count means
"all elements from the offset". -/
def zlimit (l : List (Nat × WebhookEvent)) (limit : Int) : List (Nat × WebhookEvent) :=
  if limit < 0 then l else l.take limit.toNat

/-- The `filteredEvents` list `InboxService.getEvents` assembles (lines
593-611 of the service, factored out): `limit = options.limit || 50`; the
events with score at least the (already parsed) `since` bound, in ascending
order, capped by `ZRANGEBYSCORE ... LIMIT 0 limit`, then filtered to unread
members when requested. -/
def queryList (now : Nat) (o : GetEventsOptions) (s : Store) : List WebhookEvent :=
  let limit := jsOrInt o.limit 50
  let minScore : Option Int := o.since.bind id
  let ev0 := (purge now s.eventsKey).getD ([], none)
  let inRange := match minScore with
    | none => ev0.1
    | some t => ev0.1.filter (fun q => decide (t ≤ (q.1 : Int)))
  let fetched := zlimit inRange limit
  let events := fetched.map Prod.snd
  if o.unread then events.filter (fun e => !e.read) else events

/-- `InboxService.getEvents`, command for command.  When `since` was
supplied but is unparseable, the `min` bound is `NaN` and redis rejects the
`ZRANGEBYSCORE` call, which surfaces as a thrown error.  Otherwise the
handler assembles `filteredEvents` (see `queryList`); when `markRead` is
set and something was returned, each returned event's `read` flag is set
and the event is re-`ZADD`ed under its original score (a member whose
serialization changed is a new member to redis), and the unread counter is
reset with a plain `SET unread:{id} 0` (which leaves the key without a
TTL).  Returns the filtered events. -/
def getEvents (now : Nat) (inboxId : String) (o : GetEventsOptions) (s : Store) :
    Except String (List WebhookEvent × Store) :=
  if o.since = some none then
    .error "ERR min or max is not a float"
  else
    let filteredEvents := queryList now o s
    if o.markRead && decide (0 < filteredEvents.length) then
      let ev0 := (purge now s.eventsKey).getD ([], none)
      let newList := filteredEvents.foldl
        (fun acc e => zadd acc e.received_at { e with read := true }) ev0.1
      .ok (filteredEvents.map (fun e => { e with read := true }),
        { s with eventsKey := some (newList, ev0.2), unreadKey := some (0, none) })
    else
      .ok (filteredEvents, s)

/-- `InboxService.getEventCounts`: `ZCARD events:{id}` and the unread
counter (`0` when the key is absent). -/
def getEventCounts (now : Nat) (s : Store) : Nat × Int :=
  let total := (((purge now s.eventsKey).map Prod.fst).getD []).length
  let unread := ((purge now s.unreadKey).map Prod.fst).getD 0
  (total, unread)

/-- The raw contents of the `events:{id}` sorted set, TTL aside (used to
state facts about the stored log itself). -/
def rawEvents (s : Store) : List (Nat × WebhookEvent) :=
  match s.eventsKey with
  | some p => p.1
  | none => []

/-! ## The events route (src/src/routes/events.ts) -/

/-- `RATE_LIMIT_PER_MINUTE` (src/src/middleware/ratelimit.ts line 4,
default `'60'`). -/
def RATE_LIMIT_PER_MINUTE : Nat := 60

/-- The rate limiter's redis counters for one caller key: the value of
`ratelimit:{key}:{w}` per minute index `w` (`0` = key absent).  The `EXPIRE
... 60` issued on a counter's first increment fires at least a full minute
after that increment, so it never deletes a counter while requests can still
address it (the key name moves to the next minute index first); the model
therefore keeps the counters indexed by window. -/
structure RateLimitState where
  counts : Nat → Nat

/-- What the `rateLimit` middleware decides for one request: admission, the
configured limit, and — on denial — the `reset_at` deadline of the response
body. -/
structure RateLimitResult where
  allowed : Bool
  limit : Nat
  reset_at : Option Nat
deriving DecidableEq, Repr

/-- `Math.floor(Date.now() / 60000)`: the fixed window index. -/
def windowOf (now : Nat) : Nat := now / 60000

/-- `new Date(Math.ceil(Date.now() / 60000) * 60000)`: the deadline at which
the current window resets (ceiling division, exact for integer `now`). -/
def resetAtOf (now : Nat) : Nat := ((now + 60000 - 1) / 60000) * 60000

/-- The `rateLimit` middleware (src/src/middleware/ratelimit.ts), for a
fixed caller key: `INCR` the counter of the current minute's key, deny with
the window's reset deadline when the incremented count exceeds the maximum,
admit otherwise. -/
def rateLimit (now : Nat) (s : RateLimitState) : RateLimitResult × RateLimitState :=
  let w := windowOf now
  let current := s.counts w + 1
  let s1 : RateLimitState := ⟨fun v => if v = w then current else s.counts v⟩
  if RATE_LIMIT_PER_MINUTE < current then
    ({ allowed := false, limit := RATE_LIMIT_PER_MINUTE, reset_at := some (resetAtOf now) }, s1)
  else
    ({ allowed := true, limit := RATE_LIMIT_PER_MINUTE, reset_at := none }, s1)

/-- The catch block of the `GET /:id/events` handler (src/src/routes/events.ts
lines 55-58): any error thrown below it is returned as HTTP 500 with the
generic message — no error reaches the client under another class. -/
def pollRouteRescue (r : Except String (List WebhookEvent × Store)) :
    Except (Nat × String) (List WebhookEvent × Store) :=
  match r with
  | .ok v => .ok v
  | .error _ => .error (500, "Failed to retrieve events")

/-- The two state-inspecting actions of the long-poll path of
`GET /:id/events` (src/src/routes/events.ts lines 35-41, for `waitSeconds >
0`): reading the unread count (`InboxService.getEventCounts`) and
registering the waiter (`subscriber.subscribe` inside
`InboxService.waitForEvents`, src/src/services/inbox.ts). -/
inductive PollAction where
  | checkCount
  | subscribe
deriving DecidableEq, Repr

/-- The order in which the handler performs the two actions, read off the
source: it awaits `getEventCounts` first (line 36) and only if the count is
zero calls `waitForEvents`, whose first step is the subscription (line 40;
`waitForEvents` never re-reads the count after subscribing). -/
def handlerPollActions : List PollAction := [.checkCount, .subscribe]

/-- The order §4.3 of the spec requires: register with the notification bus
first, then re-check the unread count. -/
def subscribeFirstActions : List PollAction := [.subscribe, .checkCount]

/-- Position of an action in a poll design's sequence. -/
def posOf (l : List PollAction) (a : PollAction) : Nat := l.indexOf a

/-- A producer's `publish` interleaved at gap `g` (after `g` of the poll's
actions have run) is reflected in the count the poll reads exactly when it
happened before the `checkCount` action. -/
def reflectedInCount (l : List PollAction) (g : Nat) : Bool :=
  decide (g ≤ posOf l .checkCount)

/-- A `publish` at gap `g` is delivered to the poll's waiter exactly when
the subscription was registered strictly before it (redis pub/sub delivers a
message to the subscribers present when it is published, and to no one
else). -/
def deliveredToWaiter (l : List PollAction) (g : Nat) : Bool :=
  decide (posOf l .subscribe < g)

/-- A `publish` the poll neither counts nor receives: the poll then has no
reason to return early. -/
def missedPublish (l : List PollAction) (g : Nat) : Bool :=
  !reflectedInCount l g && !deliveredToWaiter l g

/-- `InboxService.waitForEvents` (src/src/services/inbox.ts): resolves
`true` as soon as a message is delivered to its subscriber, and `false` only
when the full timeout elapses.  Result: (value, seconds slept). -/
def waitForEvents (delivered : Bool) (timeoutSeconds : Nat) : Bool × Nat :=
  if delivered then (true, 0) else (false, timeoutSeconds)

/-- The snapshot the `GET /:id/stream` handler emits on open
(src/src/routes/events.ts line 83): `InboxService.getEvents` with limit 10
and no other options. -/
def streamOpen (now : Nat) (inboxId : String) (s : Store) :
    Except String (List WebhookEvent) :=
  (getEvents now inboxId { limit := some 10 } s).map Prod.fst

/-- A whole stream session's event output (keep-alives aside): the snapshot,
followed by every event published to the inbox's channel after the
subscription, in publish order (the `message` handler forwards each one as
it arrives). -/
def streamSession (now : Nat) (inboxId : String) (s : Store)
    (published : List WebhookEvent) : Except String (List WebhookEvent) :=
  (streamOpen now inboxId s).map (fun snap => snap ++ published)

/-! ## A shared concrete scenario

An inbox created at time 0 with the default ttl (24 h, so its deadline is
86400000 ms), one webhook stored at 1000 ms, and a `markRead` query at
2000 ms. -/

/-- The inbox created at time 0 with the default ttl. -/
def demoCreate : Inbox × Store :=
  createInbox 0 "agent_1" {} "inbox_1" "iwh_key1"

/-- The store right after creation. -/
def demoStore0 : Store := demoCreate.2

/-- The one webhook event of the scenario, as `storeEvent` builds it. -/
def demoEvent : WebhookEvent :=
  { id := "evt_1"
    inbox_id := "inbox_1"
    received_at := 1000
    source_ip := "203.0.113.9"
    headers := []
    body := "payload"
    read := false }

/-- The store after the webhook at 1000 ms is stored. -/
def demoStore1 : Store :=
  match storeEvent 1000 "inbox_1" "evt_1" "203.0.113.9" [] "payload" demoStore0 with
  | .ok p => p.2
  | .error _ => demoStore0

/-- The `markRead` query at 2000 ms on that store. -/
def demoMarkRead : Except String (List WebhookEvent × Store) :=
  getEvents 2000 "inbox_1" { markRead := true } demoStore1

/-- The store after the `markRead` query. -/
def demoStore2 : Store :=
  match demoMarkRead with
  | .ok p => p.2
  | .error _ => demoStore1

/-! ## Drivers for sequences of appends -/

/-- The event `storeEvent` builds at time `t` (source address, headers and
body held fixed; they play no part in the ordering and capacity claims). -/
def mkEvent (inboxId : String) (t : Nat) (eventId : String) : WebhookEvent :=
  { id := eventId
    inbox_id := inboxId
    received_at := t
    source_ip := "203.0.113.9"
    headers := []
    body := "payload"
    read := false }

/-- A sequence of `storeEvent` calls, one per `(time, eventId)` item (an
append that fails leaves the state unchanged, as the thrown error does in
the source). -/
def storeAll (inboxId : String) (items : List (Nat × String)) (s : Store) : Store :=
  items.foldl (fun st p =>
    match storeEvent p.1 inboxId p.2 "203.0.113.9" [] "payload" st with
    | .ok q => q.2
    | .error _ => st) s

/-- The full, untrimmed log such a sequence describes. -/
def fullLog (inboxId : String) (items : List (Nat × String)) :
    List (Nat × WebhookEvent) :=
  items.map (fun p => (p.1, mkEvent inboxId p.1 p.2))

/-- The `n` most recent entries of a log. -/
def lastN (n : Nat) (l : List (Nat × WebhookEvent)) : List (Nat × WebhookEvent) :=
  l.drop (l.length - n)

/-- A store holding a freshly relevant inbox record with deadline `d`, an
events key, and an unread key (the shape every state reached from
`createInbox` by appends has). -/
def midStore (i : Inbox) (d : Nat) (ak : Option (String × Option Nat))
    (L : List (Nat × WebhookEvent)) (un : Option (Int × Option Nat)) : Store :=
  { inboxKey := some (i, some d)
    apikeyKey := ak
    eventsKey := some (L, some d)
    unreadKey := un }

/-- The store `createInbox` hands to the first append: inbox and credential
keys set with deadline `d`, no events key, no unread key. -/
def freshStore (i : Inbox) (d : Nat) (ak : Option (String × Option Nat)) : Store :=
  { inboxKey := some (i, some d)
    apikeyKey := ak
    eventsKey := none
    unreadKey := none }

/-- Documented free-tier ttl ceiling: `max_inbox_ttl_hours: 48` in the
`/skill.json` metadata the server publishes (src/src/index.ts) and "48 hour
max TTL" on the landing page. -/
def free_tier_max_inbox_ttl_hours : Nat := 48

/-- `createInbox` with a ttl of 10000 hours, far beyond the documented
ceiling. -/
def hugeTtlCreate : Inbox × Store :=
  createInbox 0 "agent_1" { ttl_hours := some 10000 } "inbox_2" "iwh_key2"

/-- Eleven webhooks stored on the demo inbox, at 1000, 2000, …, 11000 ms,
with ids `e0` … `e10`. -/
def elevenStore : Store :=
  storeAll "inbox_1" ((List.range 11).map fun n => (1000 * (n + 1), "e" ++ toString n)) demoStore0

/-- Sixty webhooks stored on the demo inbox, at 100, 200, …, 6000 ms, with
ids `e0` … `e59`. -/
def sixtyStore : Store :=
  storeAll "inbox_1" ((List.range 60).map fun n => (100 * (n + 1), "e" ++ toString n)) demoStore0

/-- 101 = `MAX_EVENTS_PER_INBOX + 1` appends at times 1 … 101 ms with ids
`e0` … `e100`. -/
def c3Items : List (Nat × String) :=
  (List.range 101).map (fun n => (n + 1, "e" ++ toString n))

/-- A log whose two oldest events are already read and whose newest is
unread (such a state arises from two webhooks, a `markRead` poll, a
capacity trim of the duplicated members, and a third webhook; it is stated
directly). -/
def readFirstStore : Store :=
  midStore demoCreate.1 86400000 (some ("inbox_1", some 86400000))
    [(100, { mkEvent "inbox_1" 100 "r1" with read := true }),
     (200, { mkEvent "inbox_1" 200 "r2" with read := true }),
     (300, mkEvent "inbox_1" 300 "u3")]
    (some (1, some 86400000))

deriving instance DecidableEq for Except

set_option maxRecDepth 40000

/-! ## Theorems -/

/-- Claim C1 (code_bug).  The long-poll path of `GET /:id/events` does NOT
register the waiter first: it reads the unread count (line 36) and only
then subscribes inside `waitForEvents` (line 40), never re-checking the
count after subscribing.  A `publish` in the gap between the two (gap 1)
is neither reflected in the count the handler read nor delivered to the
waiter, so the poll sleeps the full timeout (here 60 s) despite the new
event; under the subscribe-first order the spec requires, no gap loses a
publish. -/
theorem poll_check_then_subscribe_drops_wakeup :
    posOf handlerPollActions .checkCount = 0
    ∧ posOf handlerPollActions .subscribe = 1
    ∧ missedPublish handlerPollActions 1 = true
    ∧ waitForEvents (deliveredToWaiter handlerPollActions 1) 60 = (false, 60)
    ∧ missedPublish subscribeFirstActions 0 = false
    ∧ missedPublish subscribeFirstActions 1 = false
    ∧ missedPublish subscribeFirstActions 2 = false
    ∧ missedPublish subscribeFirstActions 3 = false := by decide

/-- Claim C2 (code_bug).  The expiry-synchronization invariant is broken by
the `markRead` path of `getEvents`: `storeEvent` provisions the unread
counter with the inbox's deadline (86400000 ms in the demo scenario), but
resetting it uses a plain `SET unread:{id} 0`, which strips the key's TTL —
after the `markRead` query the unread key has no deadline, and once the
inbox record has lapsed the key is still alive, state of an inbox that
outlived the inbox itself. -/
theorem markRead_strips_unread_ttl :
    demoStore1.unreadKey = some (1, some 86400000)
    ∧ demoStore2.unreadKey = some (0, none)
    ∧ getInbox 86400001 demoStore2 = none
    ∧ verifyApiKey 86400001 demoStore2 = none
    ∧ liveVal 86400001 demoStore2.unreadKey = some 0 := by decide

/-- Claim C4, counterexample.  On an inbox whose deadline (86400000 ms) has
passed, `resolve` (`getInbox`) and credential resolution (`verifyApiKey`)
report absence, but the query does not fail with `InboxNotFound`: it
returns an empty result, and the counts operation returns zero counts. -/
theorem expired_inbox_query_returns_empty :
    getInbox 90000000 demoStore1 = none
    ∧ verifyApiKey 90000000 demoStore1 = none
    ∧ getEvents 90000000 "inbox_1" {} demoStore1 = .ok ([], demoStore1)
    ∧ getEventCounts 90000000 demoStore1 = (0, 0) := by decide

/-- Claim C5 (code_bug).  A `markRead` query does set the returned event's
read flag and reset the unread counter, but it does not leave the rest of
the stored log unchanged: re-`ZADD`ing the re-serialized event adds a NEW
member (the `read:false` original and the `read:true` copy differ as redis
members), so the stored set keeps both and the total count grows from 1 to
2 — the comment in the source says "Update events in sorted set", but
nothing is updated in place. -/
theorem markRead_duplicates_stored_events :
    rawEvents demoStore1 = [(1000, demoEvent)]
    ∧ demoMarkRead = .ok ([{ demoEvent with read := true }], demoStore2)
    ∧ rawEvents demoStore2 = [(1000, demoEvent), (1000, { demoEvent with read := true })]
    ∧ (getEventCounts 3000 demoStore2).1 = 2
    ∧ liveVal 3000 demoStore2.unreadKey = some 0 := by decide

/-- Claim C6 (code_bug).  `createInbox` has no ttl validation at all — its
translation is total, with no error result — so a request of 10000 hours,
far beyond the 48-hour ceiling the service's own `/skill.json` metadata
documents, is accepted and both keys are stored with
`expires_at = created_at + ttl`. -/
theorem createInbox_accepts_out_of_bounds_ttl :
    hugeTtlCreate.1.ttl_hours = 10000
    ∧ free_tier_max_inbox_ttl_hours < hugeTtlCreate.1.ttl_hours
    ∧ hugeTtlCreate.1.created_at = 0
    ∧ hugeTtlCreate.1.expires_at = 10000 * 3600 * 1000
    ∧ hugeTtlCreate.2.inboxKey = some (hugeTtlCreate.1, some (10000 * 3600 * 1000))
    ∧ hugeTtlCreate.2.apikeyKey = some ("inbox_2", some (10000 * 3600 * 1000)) := by decide

/-- Claim C7, counterexample.  With eleven events `e0` … `e10` stored (in
that order), the snapshot the stream emits on open is the OLDEST ten — it
contains the oldest event `e0` and omits the most recent event `e10` — not
the most recent ten the claim states. -/
theorem stream_snapshot_drops_most_recent :
    (match streamOpen 20000 "inbox_1" elevenStore with
      | .ok l => l.map WebhookEvent.id
      | .error _ => [])
      = ["e0", "e1", "e2", "e3", "e4", "e5", "e6", "e7", "e8", "e9"] := by decide

/-- Claim C8, counterexample.  On a store of sixty events: a `limit` of `0`
is not rejected — `options.limit || 50` silently substitutes the default
and fifty events come back; a negative limit is not rejected either — redis
treats a negative `LIMIT` count as "everything", and all sixty come back;
an unparseable `since` (a `NaN` bound) makes the redis call fail, and the
route's catch block surfaces it as a generic HTTP 500, not
`InvalidArgument`. -/
theorem limit_and_since_not_rejected :
    (match getEvents 7000 "inbox_1" { limit := some 0 } sixtyStore with
      | .ok p => p.1.length | .error _ => 0) = 50
    ∧ (match getEvents 7000 "inbox_1" { limit := some (-3) } sixtyStore with
      | .ok p => p.1.length | .error _ => 0) = 60
    ∧ getEvents 7000 "inbox_1" { since := some none } sixtyStore
      = .error "ERR min or max is not a float"
    ∧ pollRouteRescue (getEvents 7000 "inbox_1" { since := some none } sixtyStore)
      = .error (500, "Failed to retrieve events") := by decide

/-- `x || d` keeps the supplied value when it is non-zero. -/
theorem jsOrInt_of_ne (l d : Int) (h : l ≠ 0) : jsOrInt (some l) d = l := by
  unfold jsOrInt
  split
  · simp_all
  · simp_all
  · simp_all

/-- A `LIMIT` clause never lengthens the range. -/
theorem zlimit_length_le (l : List (Nat × WebhookEvent)) (limit : Int) :
    (zlimit l limit).length ≤ l.length := by
  unfold zlimit
  split
  · exact le_refl _
  · rw [List.length_take]
    omega

/-- Claim C4, amended.  For an inbox that is absent or expired — its record
unreachable, and its events and unread keys (which share its deadline) gone
with it — the append operation fails with the not-found error and `resolve`
reports absence, but the query succeeds with an empty result and the counts
operation returns zero counts: neither fails with `InboxNotFound`. -/
theorem absent_inbox_reads_degrade (now : Nat) (s : Store) (o : GetEventsOptions)
    (inboxId eventId sourceIp body : String) (hs : List (String × String))
    (hinbox : getInbox now s = none)
    (hev : purge now s.eventsKey = none)
    (hun : purge now s.unreadKey = none)
    (hsince : o.since ≠ some none) :
    storeEvent now inboxId eventId sourceIp hs body s = .error "Inbox not found or expired"
    ∧ getEvents now inboxId o s = .ok ([], s)
    ∧ getEventCounts now s = (0, 0) := by
  refine ⟨?_, ?_, ?_⟩
  · simp [storeEvent, hinbox]
  · have hq : queryList now o s = [] := by
      rw [queryList]
      cases h : o.since.bind id <;> simp [h, hev, zlimit]
    simp [getEvents, hsince, hq]
  · simp [getEventCounts, hev, hun]

/-- The amended C4 at the demo scenario, past the inbox's deadline. -/
theorem absent_inbox_reads_degrade_witness :
    (getInbox 90000000 demoStore1 = none
      ∧ purge 90000000 demoStore1.eventsKey = none
      ∧ purge 90000000 demoStore1.unreadKey = none
      ∧ ({} : GetEventsOptions).since ≠ some none)
    ∧ (storeEvent 90000000 "inbox_1" "evt_9" "203.0.113.9" [] "late" demoStore1
        = .error "Inbox not found or expired"
      ∧ getEvents 90000000 "inbox_1" {} demoStore1 = .ok ([], demoStore1)
      ∧ getEventCounts 90000000 demoStore1 = (0, 0)) :=
  ⟨⟨by decide, by decide, by decide, by decide⟩,
    absent_inbox_reads_degrade 90000000 demoStore1 {} "inbox_1" "evt_9" "203.0.113.9"
      "late" [] (by decide) (by decide) (by decide) (by decide)⟩

/-- Claim C7, amended.  On open the stream emits the OLDEST up-to-ten
stored events as its snapshot (the handler queries with limit 10 and no
`since` bound, and the sorted-set range is ascending from the front), and
the whole session's output is that snapshot followed by every event
published to the inbox's channel after the subscription, in order. -/
theorem stream_emits_oldest_then_published (now : Nat) (inboxId : String) (s : Store)
    (published : List WebhookEvent) (L : List (Nat × WebhookEvent)) (e : Option Nat)
    (h : purge now s.eventsKey = some (L, e)) :
    streamOpen now inboxId s = .ok ((L.take 10).map Prod.snd)
    ∧ streamSession now inboxId s published
        = .ok ((L.take 10).map Prod.snd ++ published) := by
  have h1 : streamOpen now inboxId s = .ok ((L.take 10).map Prod.snd) := by
    simp [streamOpen, getEvents, queryList, h, jsOrInt, zlimit, Except.map]
  exact ⟨h1, by simp [streamSession, h1, Except.map]⟩

/-- The amended C7 at the demo scenario. -/
theorem stream_emits_oldest_then_published_witness :
    purge 2000 demoStore1.eventsKey = some ([(1000, demoEvent)], some 86400000)
    ∧ (streamOpen 2000 "inbox_1" demoStore1
        = .ok (([(1000, demoEvent)].take 10).map Prod.snd)
      ∧ streamSession 2000 "inbox_1" demoStore1 []
        = .ok (([(1000, demoEvent)].take 10).map Prod.snd ++ [])) :=
  ⟨by decide,
    stream_emits_oldest_then_published 2000 "inbox_1" demoStore1 []
      [(1000, demoEvent)] (some 86400000) (by decide)⟩

/-- Claim C8, amended.  The query does not reject `limit ≤ 0` and does not
report `InvalidArgument` for a bad `since`: a limit of `0` behaves exactly
as the default 50 (`options.limit || 50`); a negative limit returns every
event in range; a `since` that does not parse makes the store call fail and
the route surfaces it as a generic internal failure (HTTP 500). -/
theorem query_limit_and_since_handling (now : Nat) (inboxId : String) (s : Store)
    (o : GetEventsOptions) (l : Int) :
    (getEvents now inboxId { o with limit := some 0 } s
      = getEvents now inboxId { o with limit := some 50 } s)
    ∧ (o.since = some none →
        getEvents now inboxId o s = .error "ERR min or max is not a float"
        ∧ pollRouteRescue (getEvents now inboxId o s)
          = .error (500, "Failed to retrieve events"))
    ∧ (l < 0 →
        getEvents now inboxId { since := none, limit := some l } s
          = .ok ((((purge now s.eventsKey).getD ([], none)).1).map Prod.snd, s)) := by
  refine ⟨rfl, ?_, ?_⟩
  · intro h
    have h1 : getEvents now inboxId o s = .error "ERR min or max is not a float" := by
      rw [getEvents, if_pos h]
    exact ⟨h1, by simp [pollRouteRescue, h1]⟩
  · intro hl
    have hne : l ≠ 0 := by omega
    have hq : queryList now { since := none, limit := some l } s
        = (((purge now s.eventsKey).getD ([], none)).1).map Prod.snd := by
      rw [queryList]
      simp [jsOrInt_of_ne l 50 hne, zlimit, if_pos hl]
    simp [getEvents, hq]

/-- An entry whose score is at least every score present goes to the end of
the sorted set. -/
theorem insertEntry_append (l : List (Nat × WebhookEvent)) (sc : Nat) (m : WebhookEvent)
    (h : ∀ q ∈ l, q.1 ≤ sc) : insertEntry l sc m = l ++ [(sc, m)] := by
  induction l with
  | nil => rfl
  | cons q l ih =>
    have hq : q.1 ≤ sc := h q (by simp)
    simp only [insertEntry]
    rw [if_neg (by omega), ih (fun r hr => h r (by simp [hr]))]
    rfl

/-- `ZADD` of a member not yet present, with a score at least every score
present, appends it. -/
theorem zadd_append (l : List (Nat × WebhookEvent)) (sc : Nat) (m : WebhookEvent)
    (hfresh : ∀ q ∈ l, q.2 ≠ m) (hle : ∀ q ∈ l, q.1 ≤ sc) :
    zadd l sc m = l ++ [(sc, m)] := by
  rw [zadd, List.filter_eq_self.mpr (fun q hq => decide_eq_true (hfresh q hq)),
    insertEntry_append l sc m hle]

/-- A log within the bound is untouched by `lastN`. -/
theorem lastN_of_le {n : Nat} {l : List (Nat × WebhookEvent)} (h : l.length ≤ n) :
    lastN n l = l := by
  simp [lastN, Nat.sub_eq_zero_of_le h]

/-- `lastN` keeps at most `n` entries. -/
theorem lastN_length_le (n : Nat) (l : List (Nat × WebhookEvent)) :
    (lastN n l).length ≤ n := by
  simp [lastN]
  omega

/-- Entries of `lastN` are entries of the log. -/
theorem lastN_subset {n : Nat} {l : List (Nat × WebhookEvent)}
    {q : Nat × WebhookEvent} (h : q ∈ lastN n l) : q ∈ l :=
  List.mem_of_mem_drop h

/-- The sliding-window identity: trimming, appending more, and trimming
again is the same as trimming the whole log once. -/
theorem lastN_append_lastN (n : Nat) (X Y : List (Nat × WebhookEvent)) :
    lastN n (lastN n X ++ Y) = lastN n (X ++ Y) := by
  rcases le_or_lt X.length n with h | h
  · rw [lastN_of_le h]
  · unfold lastN
    have h1 : (X.drop (X.length - n)).length = n := by simp; omega
    rw [List.length_append, List.length_append, h1]
    have e1 : n + Y.length - n = Y.length := by omega
    have e2 : X.length + Y.length - n = (X.length - n) + Y.length := by omega
    rw [e1, e2]
    calc (X.drop (X.length - n) ++ Y).drop Y.length
        = ((X ++ Y).drop (X.length - n)).drop Y.length := by
          rw [List.drop_append_of_le_length (show X.length - n ≤ X.length by omega)]
      _ = (X ++ Y).drop ((X.length - n) + Y.length) :=
          List.drop_drop Y.length (X.length - n) (X ++ Y)

/-- One `storeEvent` on a state of the shape every append-reachable state
has: the inbox alive with deadline `d`, the new score at least every stored
score, the new member fresh.  The event is appended, the log trimmed, both
derived keys re-provisioned with exactly the inbox's deadline, and the
unread counter incremented. -/
theorem storeEvent_step (inboxId eid : String) (i : Inbox) (d t : Nat)
    (ak : Option (String × Option Nat)) (L : List (Nat × WebhookEvent))
    (un : Option (Int × Option Nat))
    (htd : t < d)
    (hfresh : ∀ q ∈ L, q.2 ≠ mkEvent inboxId t eid)
    (hle : ∀ q ∈ L, q.1 ≤ t) :
    storeEvent t inboxId eid "203.0.113.9" [] "payload" (midStore i d ak L un)
      = .ok (mkEvent inboxId t eid,
          midStore i d ak (trimEvents (L ++ [(t, mkEvent inboxId t eid)]))
            (some (((purge t un).getD (0, none)).1 + 1, some d))) := by
  have ht1 : ((d : Int) - (t : Int)).toNat = d - t := by omega
  have ht2 : t + (d - t) = d := by omega
  have hpos : (0 : Int) < (d : Int) - (t : Int) := by omega
  simp only [storeEvent, getInbox, midStore, liveVal, purge, redisTTL, if_pos htd,
    Option.map_some, Option.getD_some]
  have hm : ({ id := eid
               inbox_id := inboxId
               received_at := t
               source_ip := "203.0.113.9"
               headers := []
               body := "payload"
               read := false } : WebhookEvent) = mkEvent inboxId t eid := rfl
  rw [hm, zadd_append L t (mkEvent inboxId t eid) hfresh hle]
  simp [if_pos hpos, ht1, ht2]
  intro h
  exact absurd h (by omega)

/-- Every sequence of appends on a mid-flight state (inbox alive with
deadline `d`, stored scores equal to their events' timestamps and below
every new time, new times strictly increasing and within the deadline, log
within the bound) leaves exactly the last `MAX_EVENTS_PER_INBOX` entries of
the old log plus the appended events. -/
theorem storeAll_midStore (inboxId : String) (i : Inbox) (d : Nat)
    (ak : Option (String × Option Nat)) (items : List (Nat × String)) :
    ∀ (L : List (Nat × WebhookEvent)) (un : Option (Int × Option Nat)),
    (∀ q ∈ L, q.2.received_at = q.1) →
    (∀ q ∈ L, ∀ p ∈ items, q.1 < p.1) →
    items.Pairwise (fun a b => a.1 < b.1) →
    (∀ p ∈ items, p.1 < d) →
    L.length ≤ MAX_EVENTS_PER_INBOX →
    rawEvents (storeAll inboxId items (midStore i d ak L un))
      = lastN MAX_EVENTS_PER_INBOX (L ++ fullLog inboxId items) := by
  induction items with
  | nil =>
    intro L un h1 h2 h3 h4 h5
    simp [storeAll, rawEvents, midStore, fullLog, lastN_of_le h5]
  | cons p rest ih =>
    obtain ⟨t, eid⟩ := p
    intro L un h1 h2 h3 h4 h5
    have htd : t < d := h4 (t, eid) (by simp)
    have hfresh : ∀ q ∈ L, q.2 ≠ mkEvent inboxId t eid := by
      intro q hq habs
      have : q.2.received_at = q.1 := h1 q hq
      have hlt : q.1 < t := h2 q hq (t, eid) (by simp)
      rw [habs] at this
      simp [mkEvent] at this
      omega
    have hle : ∀ q ∈ L, q.1 ≤ t := fun q hq =>
      Nat.le_of_lt (h2 q hq (t, eid) (by simp))
    have hstep := storeEvent_step inboxId eid i d t ak L un htd hfresh hle
    have hunfold : storeAll inboxId ((t, eid) :: rest) (midStore i d ak L un)
        = storeAll inboxId rest
            (midStore i d ak (trimEvents (L ++ [(t, mkEvent inboxId t eid)]))
              (some (((purge t un).getD (0, none)).1 + 1, some d))) := by
      simp [storeAll, hstep]
    rw [hunfold]
    set Lnew := trimEvents (L ++ [(t, mkEvent inboxId t eid)]) with hLnew
    have hLtrim : Lnew = lastN MAX_EVENTS_PER_INBOX (L ++ [(t, mkEvent inboxId t eid)]) := rfl
    have h1n : ∀ q ∈ Lnew, q.2.received_at = q.1 := by
      intro q hq
      have hq2 : q ∈ L ++ [(t, mkEvent inboxId t eid)] := lastN_subset (hLtrim ▸ hq)
      rcases List.mem_append.mp hq2 with hqa | hqb
      · exact h1 q hqa
      · simp at hqb
        rw [hqb]
        rfl
    have h2n : ∀ q ∈ Lnew, ∀ p2 ∈ rest, q.1 < p2.1 := by
      intro q hq p2 hp2
      have hq2 : q ∈ L ++ [(t, mkEvent inboxId t eid)] := lastN_subset (hLtrim ▸ hq)
      rcases List.mem_append.mp hq2 with hqa | hqb
      · exact h2 q hqa p2 (by simp [hp2])
      · simp at hqb
        rw [hqb]
        exact (List.pairwise_cons.mp h3).1 p2 hp2
    have h3n : rest.Pairwise (fun a b => a.1 < b.1) := (List.pairwise_cons.mp h3).2
    have h4n : ∀ p2 ∈ rest, p2.1 < d := fun p2 hp2 => h4 p2 (by simp [hp2])
    have h5n : Lnew.length ≤ MAX_EVENTS_PER_INBOX := by
      rw [hLtrim]
      exact lastN_length_le _ _
    rw [ih Lnew (some (((purge t un).getD (0, none)).1 + 1, some d)) h1n h2n h3n h4n h5n]
    rw [hLtrim, lastN_append_lastN]
    simp [fullLog, mkEvent]

/-- The assembled query list is no longer than the stored log. -/
theorem queryList_length_le (now : Nat) (o : GetEventsOptions) (s : Store) :
    (queryList now o s).length ≤ (rawEvents s).length := by
  have hev : (((purge now s.eventsKey).getD ([], none)).1).length
      ≤ (rawEvents s).length := by
    cases hk : s.eventsKey with
    | none => simp [purge, rawEvents, hk]
    | some p =>
      obtain ⟨lst, ex⟩ := p
      cases ex with
      | none => simp [purge, rawEvents, hk]
      | some e => by_cases hne : now < e <;> simp [purge, rawEvents, hk, hne]
  refine le_trans ?_ hev
  rw [queryList]
  cases hb : o.since.bind id with
  | none =>
    cases hu : o.unread <;> simp only [hb, hu, Bool.false_eq_true, if_false, if_true]
    · simpa using zlimit_length_le _ _
    · refine le_trans (List.length_filter_le _ _) ?_
      simpa using zlimit_length_le _ _
  | some t =>
    cases hu : o.unread <;> simp only [hb, hu, Bool.false_eq_true, if_false, if_true]
    · simpa using le_trans (zlimit_length_le _ _) (List.length_filter_le _ _)
    · refine le_trans (List.length_filter_le _ _) ?_
      simpa using le_trans (zlimit_length_le _ _) (List.length_filter_le _ _)

/-- A successful query never returns more events than the store holds. -/
theorem getEvents_length_le (now : Nat) (inboxId : String) (o : GetEventsOptions)
    (s : Store) :
    (match getEvents now inboxId o s with
      | .ok q => q.1.length
      | .error _ => 0) ≤ (rawEvents s).length := by
  simp only [getEvents]
  by_cases hsince : o.since = some none
  · simp [hsince]
  · rw [if_neg hsince]
    by_cases hc : (o.markRead && decide (0 < (queryList now o s).length)) = true
    · rw [if_pos hc]
      simpa using queryList_length_le now o s
    · rw [if_neg hc]
      simpa using queryList_length_le now o s

/-- Claim C3.  For a sequence of `capacity + k` appends (`k ≥ 1`) at
strictly increasing timestamps within the inbox's deadline, exactly the
`capacity` most-recent events remain stored — the resulting log is the full
append sequence minus its `k` oldest entries, order preserved — and no
query on the resulting store returns more than `capacity` events. -/
theorem capacity_invariant (inboxId : String) (i : Inbox) (d : Nat)
    (ak : Option (String × Option Nat)) (items : List (Nat × String))
    (now2 : Nat) (o : GetEventsOptions)
    (hmono : items.Pairwise (fun a b => a.1 < b.1))
    (hb : ∀ p ∈ items, p.1 < d)
    (hlen : MAX_EVENTS_PER_INBOX + 1 ≤ items.length) :
    rawEvents (storeAll inboxId items (freshStore i d ak))
      = (fullLog inboxId items).drop (items.length - MAX_EVENTS_PER_INBOX)
    ∧ (rawEvents (storeAll inboxId items (freshStore i d ak))).length
      = MAX_EVENTS_PER_INBOX
    ∧ (match getEvents now2 inboxId o (storeAll inboxId items (freshStore i d ak)) with
        | .ok q => q.1.length
        | .error _ => 0) ≤ MAX_EVENTS_PER_INBOX := by
  have hmain : rawEvents (storeAll inboxId items (freshStore i d ak))
      = lastN MAX_EVENTS_PER_INBOX (fullLog inboxId items) := by
    cases items with
    | nil => simp at hlen
    | cons p rest =>
      obtain ⟨t, eid⟩ := p
      have htd : t < d := hb (t, eid) (by simp)
      have ht1 : ((d : Int) - (t : Int)).toNat = d - t := by omega
      have ht2 : t + (d - t) = d := by omega
      have hpos : (0 : Int) < (d : Int) - (t : Int) := by omega
      have hstep : storeEvent t inboxId eid "203.0.113.9" [] "payload" (freshStore i d ak)
          = .ok (mkEvent inboxId t eid,
              midStore i d ak [(t, mkEvent inboxId t eid)] (some (1, some d))) := by
        have hm : ({ id := eid
                     inbox_id := inboxId
                     received_at := t
                     source_ip := "203.0.113.9"
                     headers := []
                     body := "payload"
                     read := false } : WebhookEvent) = mkEvent inboxId t eid := rfl
        simp only [storeEvent, getInbox, freshStore, liveVal, purge, redisTTL,
          if_pos htd, Option.map_some, Option.getD_some]
        rw [hm]
        simp [zadd, insertEntry, trimEvents, midStore, if_pos hpos, ht1, ht2,
          MAX_EVENTS_PER_INBOX]
        omega
      have hunfold : storeAll inboxId ((t, eid) :: rest) (freshStore i d ak)
          = storeAll inboxId rest
              (midStore i d ak [(t, mkEvent inboxId t eid)] (some (1, some d))) := by
        simp [storeAll, hstep]
      rw [hunfold]
      rw [storeAll_midStore inboxId i d ak rest [(t, mkEvent inboxId t eid)]
        (some (1, some d))
        (by intro q hq; simp at hq; rw [hq]; rfl)
        (by
          intro q hq p2 hp2
          simp at hq
          rw [hq]
          exact (List.pairwise_cons.mp hmono).1 p2 hp2)
        (List.pairwise_cons.mp hmono).2
        (fun p2 hp2 => hb p2 (by simp [hp2]))
        (by simp [MAX_EVENTS_PER_INBOX])]
      simp [fullLog, mkEvent]
  have hlength : (rawEvents (storeAll inboxId items (freshStore i d ak))).length
      = MAX_EVENTS_PER_INBOX := by
    rw [hmain]
    unfold lastN
    have hfl : (fullLog inboxId items).length = items.length := by simp [fullLog]
    rw [List.length_drop, hfl]
    omega
  refine ⟨?_, hlength, ?_⟩
  · rw [hmain]
    unfold lastN
    have hfl : (fullLog inboxId items).length = items.length := by simp [fullLog]
    rw [hfl]
  · have hle := getEvents_length_le now2 inboxId o (storeAll inboxId items (freshStore i d ak))
    rw [hlength] at hle
    exact hle

/-- C3 at a concrete run: `capacity + 1 = 101` appends at times 1 … 101 ms
on a fresh default-ttl inbox, then an unfiltered query. -/
theorem capacity_invariant_witness :
    (c3Items.Pairwise (fun a b => a.1 < b.1)
      ∧ (∀ p ∈ c3Items, p.1 < 86400000)
      ∧ MAX_EVENTS_PER_INBOX + 1 ≤ c3Items.length)
    ∧ (rawEvents (storeAll "inbox_1" c3Items
          (freshStore demoCreate.1 86400000 (some ("inbox_1", some 86400000))))
        = (fullLog "inbox_1" c3Items).drop (c3Items.length - MAX_EVENTS_PER_INBOX)
      ∧ (rawEvents (storeAll "inbox_1" c3Items
          (freshStore demoCreate.1 86400000 (some ("inbox_1", some 86400000))))).length
        = MAX_EVENTS_PER_INBOX
      ∧ (match getEvents 5000 "inbox_1" {} (storeAll "inbox_1" c3Items
            (freshStore demoCreate.1 86400000 (some ("inbox_1", some 86400000)))) with
          | .ok q => q.1.length
          | .error _ => 0) ≤ MAX_EVENTS_PER_INBOX) :=
  ⟨⟨by decide, by decide, by decide⟩,
    capacity_invariant "inbox_1" demoCreate.1 86400000 (some ("inbox_1", some 86400000))
      c3Items 5000 {} (by decide) (by decide) (by decide)⟩

/-- Claim C9.  The rate limiter is a fixed-window counter: every request
increments exactly its own window's counter (so the first request of a
window takes it from 0 to 1, and no request — admitted or denied — touches
the next window's counter), admission holds exactly when the incremented
count stays within the configured maximum, and a denial carries the
deadline at which the current window resets (at or after `now`, and no
later than the window's end). -/
theorem rateLimit_fixed_window (now : Nat) (s : RateLimitState) :
    ((rateLimit now s).2.counts (windowOf now) = s.counts (windowOf now) + 1)
    ∧ ((rateLimit now s).1.allowed
        = decide (s.counts (windowOf now) + 1 ≤ RATE_LIMIT_PER_MINUTE))
    ∧ ((rateLimit now s).1.allowed = false →
        (rateLimit now s).1.reset_at = some (resetAtOf now))
    ∧ (now ≤ resetAtOf now ∧ resetAtOf now ≤ (windowOf now + 1) * 60000)
    ∧ ((rateLimit now s).2.counts (windowOf now + 1) = s.counts (windowOf now + 1))
    ∧ (s.counts (windowOf now) = 0 → (rateLimit now s).2.counts (windowOf now) = 1) := by
  have harith : now ≤ resetAtOf now ∧ resetAtOf now ≤ (windowOf now + 1) * 60000 := by
    unfold resetAtOf windowOf
    omega
  by_cases h : RATE_LIMIT_PER_MINUTE < s.counts (windowOf now) + 1
  · refine ⟨?_, ?_, ?_, harith, ?_, ?_⟩ <;>
      simp [rateLimit, if_pos h] <;> omega
  · refine ⟨?_, ?_, ?_, harith, ?_, ?_⟩ <;>
      simp [rateLimit, if_neg h] <;> omega

/-- Claim C10.  The query caps to `limit` before filtering to unread: when
the `limit` oldest in-range events are all already read, a query with
`unreadOnly` returns nothing at all, even though unread events (fewer than
`limit` would allow) are present further along the log. -/
theorem unreadOnly_filtered_after_limit (now : Nat) (inboxId : String) (s : Store)
    (o : GetEventsOptions) (l : Int)
    (hlim : o.limit = some l) (hl : 0 < l)
    (hunread : o.unread = true) (hmark : o.markRead = false) (hsince : o.since = none)
    (hread : ∀ q ∈ (((purge now s.eventsKey).getD ([], none)).1.take l.toNat),
      q.2.read = true)
    (hun : ∃ q ∈ ((purge now s.eventsKey).getD ([], none)).1, q.2.read = false) :
    getEvents now inboxId o s = .ok ([], s)
    ∧ 0 < ((((purge now s.eventsKey).getD ([], none)).1.filter
        (fun q => !q.2.read)).length) := by
  constructor
  · have hne : l ≠ 0 := by omega
    have hnneg : ¬ l < 0 := by omega
    have hq : queryList now o s = [] := by
      rw [queryList]
      simp [hsince, hlim, hunread, jsOrInt_of_ne l 50 hne, zlimit, hnneg]
      intro a ha
      rw [← List.map_take] at ha
      obtain ⟨q, hq2, rfl⟩ := List.mem_map.mp ha
      exact hread q hq2
    simp [getEvents, hsince, hmark, hq]
  · obtain ⟨q, hq, hqr⟩ := hun
    have : q ∈ (((purge now s.eventsKey).getD ([], none)).1.filter (fun q => !q.2.read)) :=
      List.mem_filter.mpr ⟨hq, by simp [hqr]⟩
    exact List.length_pos.mpr (fun hnil => by simp [hnil] at this)

/-- C10 at a concrete log: two read events before one unread event, limit
two — the query returns nothing although an unread event is stored. -/
theorem unreadOnly_filtered_after_limit_witness :
    (({ unread := true, limit := some 2 } : GetEventsOptions).limit = some 2
      ∧ (0 : Int) < 2
      ∧ ({ unread := true, limit := some 2 } : GetEventsOptions).unread = true
      ∧ ({ unread := true, limit := some 2 } : GetEventsOptions).markRead = false
      ∧ ({ unread := true, limit := some 2 } : GetEventsOptions).since = none)
    ∧ (getEvents 1000 "inbox_1" { unread := true, limit := some 2 } readFirstStore
        = .ok ([], readFirstStore)
      ∧ 0 < ((((purge 1000 readFirstStore.eventsKey).getD ([], none)).1.filter
          (fun q => !q.2.read)).length)) :=
  ⟨⟨rfl, by decide, rfl, rfl, rfl⟩,
    unreadOnly_filtered_after_limit 1000 "inbox_1" readFirstStore
      { unread := true, limit := some 2 } 2 rfl (by decide) rfl rfl rfl
      (by decide) (by decide)⟩

end Swarmhook
